import Mathlib

/-!
Shallow embedding of `epistasis/models/nonlinear/regression.py` from the
harmsm/epistasis repository.

Modelling conventions:

* Python scalars are modelled as `Int`.
* Python dicts are modelled as association lists (`PyDict`) with
  insert-or-overwrite semantics that preserve insertion order, matching
  CPython dict behaviour.
* A `Parameters` object's bookkeeping attributes (`_param_list`, `n`,
  `_mapping`, `_mapping_`) are modelled as structure fields named
  `param_list`, `n`, `mapping`, `mapping_`; the per-parameter scalar
  attributes created with `setattr` live in the finite map `attrs`.
* The external numerical routines (sklearn linear regression,
  `scipy.optimize.curve_fit`) are uninterpreted oracles, following the
  spec's statement that all numerically intensive work is delegated to
  external libraries.
* Fallible Python code (raised exceptions) is modelled with
  `Option`/`Except`.
-/

/-- A Python dict, as an insertion-ordered association list. -/

abbrev PyDict (α β : Type) := List (α × β)

/-- `d[k] = v`: overwrite in place if the key is present, else append. -/

def dictInsert {α β : Type} [DecidableEq α] (d : PyDict α β) (k : α) (v : β) :
    PyDict α β :=
  if d.any (fun kv => decide (kv.1 = k)) then
    d.map (fun kv => if kv.1 = k then (k, v) else kv)
  else d ++ [(k, v)]

/-- `d.get(k)` / `d[k]` lookup, `none` models a `KeyError`. -/

def dictGet? {α β : Type} [DecidableEq α] (d : PyDict α β) (k : α) : Option β :=
  (d.find? (fun kv => decide (kv.1 = k))).map Prod.snd

/-- The `Parameters` container from `regression.py`.  The Python instance
attributes `_param_list`, `n`, `_mapping`, `_mapping_` are the fields
`param_list`, `n`, `mapping`, `mapping_`; the scalar attributes created by
`setattr(self, name, value)` are the entries of `attrs`. -/

structure Parameters where
  param_list : List String
  n : Nat
  mapping : PyDict String Nat
  mapping_ : PyDict Nat String
  attrs : PyDict String Int

/-- The body of the `for i in range(self.n)` loop of `Parameters.__init__`:
`setattr(self, self._param_list[i], 0)`, `self._mapping_[i] = ...`,
`self._mapping[...] = i`. -/

def initLoop : Nat → List String → Parameters → Parameters
  | _, [], p => p
  | i, s :: rest, p =>
      initLoop (i + 1) rest
        { p with
          attrs := dictInsert p.attrs s 0,
          mapping_ := dictInsert p.mapping_ i s,
          mapping := dictInsert p.mapping s i }

/-- `Parameters.__init__(self, params)`. -/

def Parameters.init (params : List String) : Parameters :=
  initLoop 0 params
    { param_list := params, n := params.length,
      mapping := [], mapping_ := [], attrs := [] }

/-- The association list `[(i, l[0]), (i+1, l[1]), ...]`. -/

def idxPairs : Nat → List String → PyDict Nat String
  | _, [] => []
  | i, s :: rest => (i, s) :: idxPairs (i + 1) rest

/-- The `keys` property: `return self._param_list`. -/

def Parameters.keys (p : Parameters) : List String := p.param_list

/-- `[getattr(self, s) for s in names]`, `none` models an `AttributeError`. -/

def getattrList (p : Parameters) : List String → Option (List Int)
  | [] => some []
  | s :: rest =>
      match dictGet? p.attrs s with
      | none => none
      | some v =>
          match getattrList p rest with
          | none => none
          | some vs => some (v :: vs)

/-- The `values` property: walk `self._param_list` and `getattr` each name. -/

def Parameters.values (p : Parameters) : Option (List Int) :=
  getattrList p p.param_list

/-- `Parameters.__call__`: `return dict(zip(self.keys, self.values))`. -/

def Parameters.call (p : Parameters) : Option (PyDict String Int) :=
  match p.values with
  | none => none
  | some vs =>
      some ((p.keys.zip vs).foldl (fun d kv => dictInsert d kv.1 kv.2) [])

/-- The `param` argument of `_set_param`: either an index or a name. -/

inductive ParamKey where
  | idx (i : Nat)
  | pname (s : String)

/-- `Parameters._set_param(self, param, value)`: an index is first resolved
through `self._mapping_` (a missing key raises, modelled by `none`), then the
value is installed with `setattr`. -/

def Parameters.set_param (p : Parameters) (k : ParamKey) (v : Int) :
    Option Parameters :=
  match k with
  | ParamKey.idx i =>
      match dictGet? p.mapping_ i with
      | none => none
      | some s => some { p with attrs := dictInsert p.attrs s v }
  | ParamKey.pname s => some { p with attrs := dictInsert p.attrs s v }

/-- `[getattr(self, self._mapping_[i]) for i in range(start, start+count)]`. -/

def getIdxList (p : Parameters) : Nat → Nat → Option (List Int)
  | _, 0 => some []
  | i, c + 1 =>
      match dictGet? p.mapping_ i with
      | none => none
      | some s =>
          match dictGet? p.attrs s with
          | none => none
          | some v =>
              match getIdxList p (i + 1) c with
              | none => none
              | some vs => some (v :: vs)

/-- `Parameters.get_params`:
`[getattr(self, self._mapping_[i]) for i in range(len(self._mapping_))]`. -/

def Parameters.get_params (p : Parameters) : Option (List Int) :=
  getIdxList p 0 p.mapping_.length

/-- Minimal model of the Python values handled by `json.dump` in `to_json`:
an open file handle or a dict of parameter values. -/

inductive PyObj where
  | fileHandle
  | pyDict (d : PyDict String Int)

/-- Only the dict is JSON serializable; a file handle is not. -/

def PyObj.serializable : PyObj → Bool
  | PyObj.fileHandle => false
  | PyObj.pyDict _ => true

/-- JSON text of a name-to-value dict. -/

def jsonOfDict (d : PyDict String Int) : String :=
  "\x7b" ++
    String.intercalate ", "
      (d.map (fun kv => "\"" ++ kv.1 ++ "\": " ++ toString kv.2)) ++
    "\x7d"

/-- `json.dump(obj, fp)` writing to a file whose current contents are `file`:
serializing a non-serializable object raises `TypeError` before anything is
written; otherwise the JSON text of `obj` is written through `fp`. -/

def json_dump (obj fp : PyObj) (file : String) : Except String String :=
  if obj.serializable = false then
    Except.error "TypeError: Object of type TextIOWrapper is not JSON serializable"
  else
    match obj, fp with
    | PyObj.pyDict d, PyObj.fileHandle => Except.ok (file ++ jsonOfDict d)
    | _, _ => Except.error "AttributeError: object has no attribute write"

/-- `Parameters.to_json(self, filename)`: `open(filename, "w")` truncates the
file, then the source executes `json.dump(f, self())` — note the argument
order.  Returns the final file contents together with the outcome. -/

def Parameters.to_json (p : Parameters) (_old : String) :
    String × Except String Unit :=
  let file0 := ""
  match p.call with
  | none => (file0, Except.error "AttributeError")
  | some d =>
      match json_dump PyObj.fileHandle (PyObj.pyDict d) file0 with
      | Except.error e => (file0, Except.error e)
      | Except.ok f2 => (f2, Except.ok ())

/-- The `Parameters` states reachable in the program: constructed once by
`Parameters.__init__` from the nonlinear function's argument names, then
mutated only through `_set_param`. -/

inductive ReachableFrom (ps : List String) : Parameters → Prop
  | base : ReachableFrom ps (Parameters.init ps)
  | step {p : Parameters} {k : ParamKey} {v : Int} {q : Parameters} :
      ReachableFrom ps p → p.set_param k v = some q → ReachableFrom ps q

/-- Modelled from the spec: the genotype-phenotype map is an external object
(from the `gpmap` package, not under `src/`) that "supplies X (encoded
genotype design matrix) and y (phenotype vector)". -/

structure GPM where
  Xdesign : List (List Int)
  yobs : List Int

/-- Modelled from the spec: the `epistasis` bookkeeping attribute provided by
the base model (`..base.BaseModel`, not under `src/`); `regression.py` uses
only its `sites` list and its size `n`. -/

structure EpistasisMap where
  sites : List (List Nat)

/-- `self.epistasis.n`, the number of epistatic coefficient sites. -/

def EpistasisMap.n (e : EpistasisMap) : Nat := e.sites.length

/-- The state of an `EpistasisLinearRegression` sub-model
(`..linear.regression`, not under `src/`): `regression.py` constructs it with
an order and a model type, optionally attaches a gpm or a model matrix `X`,
fits it, and reads `coef_`. -/

structure EpistasisLinearRegression where
  order : Nat
  model_type : String
  gpm : Option GPM
  Xmat : Option (List (List Int))
  coef_ : Option (List Int)

/-- Uninterpreted oracles for the external numerical routines the spec
delegates to external libraries: the linear least-squares fits and predict of
sklearn-backed `EpistasisLinearRegression`, and `scipy.optimize.curve_fit`
(whose `popt` may depend on `f`'s data `x`, `y`, the initial guesses `p0`
and the weights `sigma`). -/

structure Oracles where
  additiveFitCoefs : GPM → List Int
  additivePredictVals : GPM → List Int
  linearFitCoefs : Option (List (List Int)) → List Int → List Int
  curveFitPopt : List Int → List Int → List Int → Option (List Int) → List Int
  sigmaOf : List Int → List Int

/-- The state of an `EpistasisNonlinearRegression` estimator.  `func` and
`rev` are the user-supplied nonlinear function and its inverse (`self.function`
and `self.reverse`), taking the independent data and the parameter values.
`Xattached` models the `self.X` attribute tested by `hypothesis`. -/

structure EpistasisNonlinearRegression where
  func : List Int → List Int → List Int
  rev : List Int → List Int → List Int
  order : Nat
  model_type : String
  fix_linear : Bool
  parameters : Parameters
  gpm : Option GPM
  Additive : Option EpistasisLinearRegression
  Linear : Option EpistasisLinearRegression
  coef_ : Option (List Int)
  Xattached : Option (List (List Int))
  epistasis : EpistasisMap

/-- `EpistasisNonlinearRegression.__init__`.  Since Lean functions do not
carry their Python argument names, the declared argument names of `function`
(as returned by `inspect.signature`) are the explicit `argNames` input.  The
`epistasis` sites bookkeeping comes from the base model (spec-modelled). -/

def initNonlinear (func rev : List Int → List Int → List Int)
    (argNames : List String) (epi : EpistasisMap)
    (order : Nat) (model_type : String) (fix_linear : Bool) :
    Except String EpistasisNonlinearRegression :=
  match argNames with
  | [] => Except.error "IndexError: list index out of range"
  | first :: rest =>
      if first ≠ "x" then
        Except.error " First argument of the nonlinear function must be `x`. "
      else
        Except.ok
          { func := func, rev := rev, order := order,
            model_type := model_type, fix_linear := fix_linear,
            parameters := Parameters.init rest,
            gpm := none, Additive := none, Linear := none, coef_ := none,
            Xattached := none, epistasis := epi }

/-- Trace events recording, in program order, the calls `fit`/`_fit_` make
into the sub-models, the nonlinear solver and the user-supplied inverse. -/

inductive FitEvent where
  | additiveFit
  | additivePredict (x : List Int)
  | curveFitCall (x y p0 : List Int)
  | reverseApply (y params : List Int)
  | linearFit (y : List Int)
deriving DecidableEq

/-- The guess setup of `_fit_`: `guesses = np.ones(self.parameters.n)`, then
`guesses[self.parameters._mapping[kw]] = kwargs[kw]` for each keyword
(`none` models the `KeyError` on an unknown name). -/

def setGuesses (p : Parameters) (kwargs : PyDict String Int) :
    Option (List Int) :=
  kwargs.foldlM
    (fun gs kv =>
      match dictGet? p.mapping kv.1 with
      | none => none
      | some idx => some (gs.set idx kv.2))
    (List.replicate p.n 1)

/-- The loop `for i in range(0, self.parameters.n):
self.parameters._set_param(i, popt[i])`; `none` models an out-of-bounds
`popt[i]` or a `_mapping_` KeyError. -/

def setPoptLoop (popt : List Int) : Nat → Nat → Parameters → Option Parameters
  | _, 0, p => some p
  | i, c + 1, p =>
      match popt.get? i with
      | none => none
      | some v =>
          match p.set_param (ParamKey.idx i) v with
          | none => none
          | some p2 => setPoptLoop popt (i + 1) c p2

def setPopt (p : Parameters) (popt : List Int) : Option Parameters :=
  setPoptLoop popt 0 p.n p

/-- `EpistasisNonlinearRegression._fit_`.  The external calls go through the
oracles `o`; the returned trace records them in execution order.  The `X`
argument of the Python method is unused by its body (the second linear fit
reads `self.Linear.X`). -/

def fitInner (o : Oracles) (st : EpistasisNonlinearRegression)
    (_X : Option (List (List Int))) (y : List Int)
    (sample_weight : Option (List Int)) (kwargs : PyDict String Int) :
    Except String (EpistasisNonlinearRegression × List FitEvent) :=
  match st.Additive, st.Linear with
  | some add0, some lin0 =>
      match add0.gpm with
      | none => Except.error "AttributeError: no genotype-phenotype map on the additive sub-model"
      | some g =>
          let addCoefs := o.additiveFitCoefs g
          let add1 : EpistasisLinearRegression := { add0 with coef_ := some addCoefs }
          let x := o.additivePredictVals g
          match setGuesses st.parameters kwargs with
          | none => Except.error "KeyError: unknown parameter name among the keyword guesses"
          | some guesses =>
              let sigma := sample_weight.map o.sigmaOf
              let popt := o.curveFitPopt x y guesses sigma
              match setPopt st.parameters popt with
              | none => Except.error "IndexError: optimizer output shorter than the parameter count"
              | some params2 =>
                  if 1 < st.order then
                    match params2.values with
                    | none => Except.error "AttributeError: missing parameter attribute"
                    | some vals =>
                        let linearized := st.rev y vals
                        let lcoefs := o.linearFitCoefs lin0.Xmat linearized
                        Except.ok
                          ({ st with
                              Additive := some add1,
                              parameters := params2,
                              Linear := some { lin0 with coef_ := some lcoefs },
                              coef_ := some lcoefs },
                            [FitEvent.additiveFit, FitEvent.additivePredict x,
                              FitEvent.curveFitCall x y guesses,
                              FitEvent.reverseApply y vals,
                              FitEvent.linearFit linearized])
                  else
                    Except.ok
                      ({ st with
                          Additive := some add1,
                          parameters := params2,
                          Linear := some add1,
                          coef_ := some addCoefs },
                        [FitEvent.additiveFit, FitEvent.additivePredict x,
                          FitEvent.curveFitCall x y guesses])
  | _, _ => Except.error "AttributeError: sub-models not constructed"

/-- `EpistasisNonlinearRegression.fit` on the `use_widgets=False` path:
check the gpm, construct the order-1 additive sub-model (attaching the gpm),
construct the high-order linear sub-model (storing `X` on it), zero `coef_`,
then run `_fit_`.  The surrounding `X_fitter` decorator lives outside `src/`
and is modelled from the spec as a pass-through of the arguments. -/

def EpistasisNonlinearRegression.fit (o : Oracles)
    (st : EpistasisNonlinearRegression) (X : Option (List (List Int)))
    (y : List Int) (sample_weight : Option (List Int))
    (kwargs : PyDict String Int) :
    Except String (EpistasisNonlinearRegression × List FitEvent) :=
  match st.gpm with
  | none =>
      Except.error "This model will not work if a genotype-phenotype map is not attached to the model class. Use the `attach_gpm` method"
  | some g =>
      let additive : EpistasisLinearRegression :=
        { order := 1, model_type := st.model_type, gpm := some g,
          Xmat := none, coef_ := none }
      let linear : EpistasisLinearRegression :=
        { order := st.order, model_type := st.model_type, gpm := none,
          Xmat := X, coef_ := none }
      let st0 := { st with
        Additive := some additive, Linear := some linear,
        coef_ := some (List.replicate st.epistasis.sites.length 0) }
      fitInner o st0 X y sample_weight kwargs

/-- `np.dot(X, v)` for a 2-d `X` and a vector `v`. -/

def dotMV (X : List (List Int)) (v : List Int) : List Int :=
  X.map (fun row => ((row.zip v).map (fun ab => ab.1 * ab.2)).foldl (fun a b => a + b) 0)

/-- The `thetas` property:
`np.concatenate((self.parameters.values, self.Linear.coef_))`. -/

def EpistasisNonlinearRegression.thetas
    (st : EpistasisNonlinearRegression) : Option (List Int) :=
  match st.parameters.values, st.Linear with
  | some vs, some lin =>
      match lin.coef_ with
      | some cs => some (vs ++ cs)
      | none => none
  | _, _ => none

/-- `EpistasisNonlinearRegression.hypothesis`: raise unless a model matrix is
attached, then split `thetas` at `i = self.parameters.n` and `j =
self.epistasis.n`, compute the linear phenotypes `np.dot(X, thetas[i:i+j])`
and feed them with `thetas[:i]` to the nonlinear function.  The `X_predictor`
decorator lives outside `src/` and is modelled as a pass-through. -/

def EpistasisNonlinearRegression.hypothesis
    (st : EpistasisNonlinearRegression) (X : List (List Int))
    (th : List Int) : Except String (List Int) :=
  match st.Xattached with
  | none =>
      Except.error "A model matrix X needs to be attached to the model. Try calling `X_constructor()`."
  | some _ =>
      let i := st.parameters.n
      let j := st.epistasis.n
      let ps := th.take i
      let ep := (th.drop i).take j
      let y1 := dotMV X ep
      Except.ok (st.func y1 ps)

/-- The event trace of a fit outcome (`none` when the fit raised). -/

def fitTrace (r : Except String (EpistasisNonlinearRegression × List FitEvent)) :
    Option (List FitEvent) :=
  match r with
  | Except.ok x => some x.2
  | Except.error _ => none

/-- The `parameters` attribute of a fit outcome (`none` when the fit raised). -/

def fitParams (r : Except String (EpistasisNonlinearRegression × List FitEvent)) :
    Option Parameters :=
  match r with
  | Except.ok x => some x.1.parameters
  | Except.error _ => none

/-- Whether the fitted state aliases `self.Linear` to `self.Additive`. -/

def fitLinearIsAdditive
    (r : Except String (EpistasisNonlinearRegression × List FitEvent)) : Prop :=
  match r with
  | Except.ok x => x.1.Linear = x.1.Additive ∧ x.1.Linear.isSome
  | Except.error _ => False

/-- Event classifiers for counting stage occurrences in a trace. -/

def isReverseApplyEv : FitEvent → Bool
  | FitEvent.reverseApply _ _ => true
  | _ => false

def isLinearFitEv : FitEvent → Bool
  | FitEvent.linearFit _ => true
  | _ => false

/-- Decidable check that for each index `i < n` the parameter named
`self._mapping_[i]` holds the `i`-th optimized value `popt[i]`. -/
def poptInstalledB (q : Parameters) (popt : List Int) : Bool :=
  (List.range q.n).all (fun i =>
    match dictGet? q.mapping_ i with
    | none => false
    | some s => decide (dictGet? q.attrs s = popt.get? i))

/-- Decidable index-to-name-to-index roundtrip at `i`. -/
def roundtripIdxB (p : Parameters) (i : Nat) : Bool :=
  match dictGet? p.mapping_ i with
  | none => false
  | some s => decide (dictGet? p.mapping s = some i)

/-- Decidable name-to-index-to-name roundtrip at `s`. -/
def roundtripNameB (p : Parameters) (s : String) : Bool :=
  match dictGet? p.mapping s with
  | none => false
  | some i => decide (dictGet? p.mapping_ i = some s)

/-- Concrete fixtures used to evaluate the embedding at specific inputs. -/
def cFunc : List Int → List Int → List Int := fun x ps2 => x ++ ps2

def cRev : List Int → List Int → List Int :=
  fun y ps2 => y.map (fun v => v + (ps2.length : Int))

def cGpm : GPM := { Xdesign := [[1, 0], [0, 1]], yobs := [10, 11] }

def cEpi : EpistasisMap := { sites := [[0], [1]] }

def cOr : Oracles :=
  { additiveFitCoefs := fun _ => [2, 3],
    additivePredictVals := fun _ => [3, 4],
    linearFitCoefs := fun _ _ => [7, 8],
    curveFitPopt := fun _ _ p0 _ => p0.map (fun v => v + 4),
    sigmaOf := fun w => w }

def cState1 : EpistasisNonlinearRegression :=
  { func := cFunc, rev := cRev, order := 1, model_type := "global",
    fix_linear := true, parameters := Parameters.init ["a"],
    gpm := some cGpm, Additive := none, Linear := none, coef_ := none,
    Xattached := none, epistasis := cEpi }

def cStateNoGpm : EpistasisNonlinearRegression := { cState1 with gpm := none }

def cState2 : EpistasisNonlinearRegression := { cState1 with order := 2 }

def cStateX : EpistasisNonlinearRegression :=
  { cState1 with
    Xattached := some [[1, 0], [0, 1]],
    Linear := some { order := 1, model_type := "global", gpm := none,
                     Xmat := none, coef_ := some [4, 5] } }

theorem dictGet?_nil {α β : Type} [DecidableEq α] (k : α) :
    dictGet? ([] : PyDict α β) k = none := rfl

theorem dictGet?_cons {α β : Type} [DecidableEq α] (kv : α × β) (d : PyDict α β)
    (k : α) :
    dictGet? (kv :: d) k = if kv.1 = k then some kv.2 else dictGet? d k := by
  by_cases h : kv.1 = k <;> simp [dictGet?, List.find?, h]

theorem dictGet?_append {α β : Type} [DecidableEq α] (d₁ d₂ : PyDict α β) (k : α) :
    dictGet? (d₁ ++ d₂) k =
      match dictGet? d₁ k with
      | some v => some v
      | none => dictGet? d₂ k := by
  induction d₁ with
  | nil => simp [dictGet?_nil]
  | cons kv tl ih =>
      by_cases h : kv.1 = k <;>
        simp [dictGet?_cons, h, ih]

theorem dictGet?_insert_self {α β : Type} [DecidableEq α] (d : PyDict α β)
    (k : α) (v : β) : dictGet? (dictInsert d k v) k = some v := by
  unfold dictInsert
  split
  case isTrue h =>
    induction d with
    | nil => simp at h
    | cons kv tl ih =>
        by_cases hk : kv.1 = k
        · simp [dictGet?_cons, hk]
        · simp only [List.map_cons, if_neg hk]
          rw [dictGet?_cons]
          rw [if_neg hk]
          apply ih
          simp only [List.any_cons, Bool.or_eq_true, decide_eq_true_eq] at h
          rcases h with h | h
          · exact absurd h hk
          · simpa using h
  case isFalse h =>
    rw [dictGet?_append]
    have hnone : dictGet? d k = none := by
      induction d with
      | nil => rfl
      | cons kv tl ih =>
          simp only [List.any_cons, Bool.or_eq_true, decide_eq_true_eq,
            not_or] at h
          rw [dictGet?_cons, if_neg h.1]
          exact ih (by simpa using h.2)
    rw [hnone]
    simp [dictGet?_cons]

theorem dictGet?_map_overwrite_ne {α β : Type} [DecidableEq α]
    (k k' : α) (v : β) (h : k' ≠ k) :
    ∀ d : PyDict α β,
      dictGet? (d.map (fun kv => if kv.1 = k then (k, v) else kv)) k' =
        dictGet? d k' := by
  intro d
  induction d with
  | nil => rfl
  | cons kv tl ih =>
      by_cases hk : kv.1 = k
      · simp only [List.map_cons, if_pos hk]
        rw [dictGet?_cons, dictGet?_cons, hk]
        simp only
        rw [if_neg (fun hh => h hh.symm), if_neg (fun hh => h hh.symm)]
        exact ih
      · simp only [List.map_cons, if_neg hk]
        rw [dictGet?_cons, dictGet?_cons]
        by_cases hk' : kv.1 = k'
        · simp [hk']
        · rw [if_neg hk', if_neg hk']
          exact ih

theorem dictGet?_insert_ne {α β : Type} [DecidableEq α] (d : PyDict α β)
    (k k' : α) (v : β) (h : k' ≠ k) :
    dictGet? (dictInsert d k v) k' = dictGet? d k' := by
  unfold dictInsert
  split
  case isTrue _ => exact dictGet?_map_overwrite_ne k k' v h d
  case isFalse _ =>
    rw [dictGet?_append]
    have : dictGet? [(k, v)] k' = none := by
      rw [dictGet?_cons, if_neg (fun hh => h hh.symm)]
      rfl
    rw [this]
    cases dictGet? d k' <;> simp

theorem dictInsert_fresh {α β : Type} [DecidableEq α] (d : PyDict α β)
    (k : α) (v : β) (h : dictGet? d k = none) :
    dictInsert d k v = d ++ [(k, v)] := by
  unfold dictInsert
  rw [if_neg]
  intro hany
  rw [List.any_eq_true] at hany
  obtain ⟨kv, hmem, hkv⟩ := hany
  rw [decide_eq_true_eq] at hkv
  induction d with
  | nil => simp at hmem
  | cons hd tl ih =>
      rw [dictGet?_cons] at h
      rcases List.mem_cons.mp hmem with rfl | hmem'
      · rw [if_pos hkv] at h; exact Option.noConfusion h
      · by_cases hh : hd.1 = k
        · rw [if_pos hh] at h; exact Option.noConfusion h
        · rw [if_neg hh] at h
          exact ih h hmem'

theorem foldl_dictInsert_fresh {α β : Type} [DecidableEq α] :
    ∀ (l : List (α × β)) (d : PyDict α β),
      (l.map Prod.fst).Nodup →
      (∀ k ∈ l.map Prod.fst, dictGet? d k = none) →
      l.foldl (fun acc kv => dictInsert acc kv.1 kv.2) d = d ++ l := by
  intro l
  induction l with
  | nil => intro d _ _; simp
  | cons kv tl ih =>
      intro d hnd hfresh
      simp only [List.map_cons, List.nodup_cons] at hnd
      have hk : dictGet? d kv.1 = none := hfresh kv.1 (by simp)
      simp only [List.foldl_cons]
      rw [dictInsert_fresh d kv.1 kv.2 hk]
      rw [ih (d ++ [(kv.1, kv.2)]) hnd.2]
      · simp
      · intro k hkmem
        rw [dictGet?_append]
        rw [hfresh k (by simp [hkmem])]
        rw [dictGet?_cons]
        rw [if_neg]
        · rfl
        · intro hcon
          simp only at hcon
          rw [hcon] at hnd
          exact hnd.1 hkmem

theorem idxPairs_length : ∀ (i : Nat) (l : List String),
    (idxPairs i l).length = l.length := by
  intro i l
  induction l generalizing i with
  | nil => rfl
  | cons s rest ih => simp [idxPairs, ih]

theorem idxPairs_get? : ∀ (l : List String) (i k : Nat),
    dictGet? (idxPairs i l) k = if i ≤ k then l.get? (k - i) else none := by
  intro l
  induction l with
  | nil =>
      intro i k
      simp [idxPairs, dictGet?_nil]
  | cons s rest ih =>
      intro i k
      simp only [idxPairs]
      rw [dictGet?_cons]
      by_cases hik : i = k
      · subst hik
        simp
      · rw [if_neg hik, ih (i + 1) k]
        by_cases hle : i + 1 ≤ k
        · rw [if_pos hle, if_pos (by omega)]
          have hk : k - i = (k - (i + 1)) + 1 := by omega
          rw [hk]
          rfl
        · rw [if_neg hle, if_neg (by omega)]

theorem initLoop_param_list : ∀ (l : List String) (i : Nat) (p : Parameters),
    (initLoop i l p).param_list = p.param_list := by
  intro l
  induction l with
  | nil => intro i p; rfl
  | cons s rest ih => intro i p; simp [initLoop, ih]

theorem initLoop_n : ∀ (l : List String) (i : Nat) (p : Parameters),
    (initLoop i l p).n = p.n := by
  intro l
  induction l with
  | nil => intro i p; rfl
  | cons s rest ih => intro i p; simp [initLoop, ih]

theorem initLoop_mapping_ : ∀ (l : List String) (i : Nat) (p : Parameters),
    (∀ kv ∈ p.mapping_, kv.1 < i) →
    (initLoop i l p).mapping_ = p.mapping_ ++ idxPairs i l := by
  intro l
  induction l with
  | nil => intro i p _; simp [initLoop, idxPairs]
  | cons s rest ih =>
      intro i p hlt
      simp only [initLoop, idxPairs]
      have hfresh : dictGet? p.mapping_ i = none := by
        cases hfind : p.mapping_.find? (fun kv => decide (kv.1 = i)) with
        | none => simp [dictGet?, hfind]
        | some kv =>
            have hmem := List.mem_of_find?_eq_some hfind
            have hp := List.find?_some hfind
            rw [decide_eq_true_eq] at hp
            have := hlt kv hmem
            omega
      rw [ih (i + 1) _ ?fresh]
      case fresh =>
        intro kv hkv
        simp only [dictInsert_fresh p.mapping_ i s hfresh] at hkv
        rcases List.mem_append.mp hkv with h | h
        · exact Nat.lt_succ_of_lt (hlt kv h)
        · have hkvs : kv = (i, s) := by simpa using h
          subst hkvs
          exact Nat.lt_succ_self i
      simp only [dictInsert_fresh p.mapping_ i s hfresh]
      rw [List.append_assoc]
      rfl

theorem Parameters.init_param_list (ps : List String) :
    (Parameters.init ps).param_list = ps := by
  unfold Parameters.init
  rw [initLoop_param_list]

theorem Parameters.init_n (ps : List String) :
    (Parameters.init ps).n = ps.length := by
  unfold Parameters.init
  rw [initLoop_n]

theorem Parameters.init_mapping_ (ps : List String) :
    (Parameters.init ps).mapping_ = idxPairs 0 ps := by
  unfold Parameters.init
  rw [initLoop_mapping_]
  · rfl
  · intro kv hkv
    simp at hkv

theorem Parameters.init_mapping__get? (ps : List String) (k : Nat) :
    dictGet? (Parameters.init ps).mapping_ k = ps.get? k := by
  rw [Parameters.init_mapping_, idxPairs_get?]
  simp

theorem initLoop_attrs_get? : ∀ (l : List String) (i : Nat) (p : Parameters)
    (s : String),
    dictGet? (initLoop i l p).attrs s =
      if s ∈ l then some 0 else dictGet? p.attrs s := by
  intro l
  induction l with
  | nil => intro i p s; simp [initLoop]
  | cons a rest ih =>
      intro i p s
      simp only [initLoop]
      rw [ih]
      by_cases hmem : s ∈ rest
      · rw [if_pos hmem, if_pos (by simp [hmem])]
      · rw [if_neg hmem]
        by_cases hsa : s = a
        · subst hsa
          simp only
          rw [if_pos (by simp)]
          exact dictGet?_insert_self p.attrs s 0
        · rw [if_neg (by simp [hsa, hmem])]
          simp only
          exact dictGet?_insert_ne p.attrs a s 0 hsa

theorem Parameters.init_attrs_get? (ps : List String) (s : String) :
    dictGet? (Parameters.init ps).attrs s = if s ∈ ps then some 0 else none := by
  unfold Parameters.init
  rw [initLoop_attrs_get?]
  rfl

theorem initLoop_mapping_get?_notmem : ∀ (l : List String) (i : Nat)
    (p : Parameters) (s : String), s ∉ l →
    dictGet? (initLoop i l p).mapping s = dictGet? p.mapping s := by
  intro l
  induction l with
  | nil => intro i p s _; rfl
  | cons a rest ih =>
      intro i p s hs
      simp only [initLoop]
      rw [ih _ _ _ (fun hc => hs (List.mem_cons_of_mem a hc))]
      simp only
      exact dictGet?_insert_ne p.mapping a s i (fun hc => hs (hc ▸ List.mem_cons_self a rest))

theorem initLoop_mapping_get?_mem : ∀ (l : List String) (i : Nat)
    (p : Parameters) (k : Nat) (s : String), l.Nodup → l.get? k = some s →
    dictGet? (initLoop i l p).mapping s = some (i + k) := by
  intro l
  induction l with
  | nil => intro i p k s _ hk; simp at hk
  | cons a rest ih =>
      intro i p k s hnd hk
      have hnd' := List.nodup_cons.mp hnd
      cases k with
      | zero =>
          have hsa : a = s := by simpa using hk
          subst hsa
          simp only [initLoop]
          rw [initLoop_mapping_get?_notmem rest (i + 1) _ a hnd'.1]
          simp only
          rw [dictGet?_insert_self]
          simp
      | succ k' =>
          simp only [List.get?] at hk
          simp only [initLoop]
          rw [ih (i + 1) _ k' s hnd'.2 hk]
          congr 1
          omega

theorem Parameters.init_mapping_get?_mem (ps : List String) (k : Nat)
    (s : String) (hnd : ps.Nodup) (hk : ps.get? k = some s) :
    dictGet? (Parameters.init ps).mapping s = some k := by
  unfold Parameters.init
  rw [initLoop_mapping_get?_mem ps 0 _ k s hnd hk]
  simp

theorem set_param_param_list (p : Parameters) (k : ParamKey) (v : Int)
    (q : Parameters) (h : p.set_param k v = some q) :
    q.param_list = p.param_list ∧ q.n = p.n ∧ q.mapping = p.mapping ∧
      q.mapping_ = p.mapping_ ∧ ∃ nm, q.attrs = dictInsert p.attrs nm v := by
  cases k with
  | idx i =>
      simp only [Parameters.set_param] at h
      split at h
      · exact Option.noConfusion h
      · cases h
        exact ⟨rfl, rfl, rfl, rfl, _, rfl⟩
  | pname s =>
      simp only [Parameters.set_param] at h
      cases h
      exact ⟨rfl, rfl, rfl, rfl, s, rfl⟩

theorem reachable_invariant {ps : List String} {p : Parameters}
    (h : ReachableFrom ps p) :
    p.param_list = ps ∧ p.n = ps.length ∧
      p.mapping = (Parameters.init ps).mapping ∧ p.mapping_ = idxPairs 0 ps ∧
      (∀ s ∈ ps, (dictGet? p.attrs s).isSome) := by
  induction h with
  | base =>
      refine ⟨Parameters.init_param_list ps, Parameters.init_n ps, rfl,
        Parameters.init_mapping_ ps, ?_⟩
      intro s hs
      rw [Parameters.init_attrs_get?, if_pos hs]
      rfl
  | @step p' k v q hr hstep ih =>
      obtain ⟨h1, h2, h3, h4, nm, h5⟩ := set_param_param_list p' k v q hstep
      refine ⟨h1.trans ih.1, h2.trans ih.2.1, h3.trans ih.2.2.1,
        h4.trans ih.2.2.2.1, ?_⟩
      intro s hs
      rw [h5]
      by_cases hsnm : s = nm
      · subst hsnm
        rw [dictGet?_insert_self]
        rfl
      · rw [dictGet?_insert_ne p'.attrs nm s v hsnm]
        exact ih.2.2.2.2 s hs

theorem getattrList_spec : ∀ (l : List String) (p : Parameters),
    (∀ s ∈ l, (dictGet? p.attrs s).isSome) →
    ∃ vs, getattrList p l = some vs ∧ vs.length = l.length ∧
      (∀ k a, l.get? k = some a → vs.get? k = dictGet? p.attrs a) := by
  intro l
  induction l with
  | nil =>
      intro p _
      exact ⟨[], rfl, rfl, by intro k a hk; simp at hk⟩
  | cons a tl ih =>
      intro p h
      have ha : (dictGet? p.attrs a).isSome := h a (by simp)
      obtain ⟨v, hv⟩ := Option.isSome_iff_exists.mp ha
      obtain ⟨vs, hvs, hlen, hget⟩ :=
        ih p (fun s hs => h s (List.mem_cons_of_mem a hs))
      refine ⟨v :: vs, ?_, by simp [hlen], ?_⟩
      · simp only [getattrList, hv, hvs]
      · intro k b hk
        cases k with
        | zero =>
            have hba : a = b := by simpa using hk
            subst hba
            simpa using hv.symm
        | succ k' =>
            simp only [List.get?] at hk
            simpa using hget k' b hk

theorem getIdxList_eq_getattrList : ∀ (l : List String) (i : Nat)
    (p : Parameters),
    (∀ k, k < l.length → dictGet? p.mapping_ (i + k) = l.get? k) →
    getIdxList p i l.length = getattrList p l := by
  intro l
  induction l with
  | nil => intro i p _; rfl
  | cons a tl ih =>
      intro i p h
      have h0 : dictGet? p.mapping_ i = some a := by
        have := h 0 (by simp)
        simpa using this
      show getIdxList p i (tl.length + 1) = getattrList p (a :: tl)
      have htl : getIdxList p (i + 1) tl.length = getattrList p tl := by
        apply ih
        intro k hk
        have := h (k + 1) (by simpa using Nat.succ_lt_succ hk)
        have harith : i + (k + 1) = i + 1 + k := by omega
        rw [harith] at this
        simpa using this
      simp only [getIdxList, getattrList, h0, htl]

theorem setPoptLoop_spec : ∀ (names : List String) (i : Nat) (p : Parameters)
    (popt : List Int),
    names.Nodup →
    (∀ k, k < names.length → dictGet? p.mapping_ (i + k) = names.get? k) →
    (∀ k, k < names.length → (popt.get? (i + k)).isSome) →
    ∃ q, setPoptLoop popt i names.length p = some q
      ∧ q.param_list = p.param_list ∧ q.n = p.n ∧ q.mapping = p.mapping
      ∧ q.mapping_ = p.mapping_
      ∧ (∀ k a, names.get? k = some a →
          dictGet? q.attrs a = popt.get? (i + k))
      ∧ (∀ s, s ∉ names → dictGet? q.attrs s = dictGet? p.attrs s) := by
  intro names
  induction names with
  | nil =>
      intro i p popt _ _ _
      refine ⟨p, rfl, rfl, rfl, rfl, rfl, ?_, fun s _ => rfl⟩
      intro k a hk
      simp at hk
  | cons a tl ih =>
      intro i p popt hnd hmap hpopt
      have hnd' := List.nodup_cons.mp hnd
      have hm0 : dictGet? p.mapping_ i = some a := by
        have := hmap 0 (by simp)
        simpa using this
      have hp0 : (popt.get? i).isSome := by
        have := hpopt 0 (by simp)
        simpa using this
      obtain ⟨v, hv⟩ := Option.isSome_iff_exists.mp hp0
      have hset : p.set_param (ParamKey.idx i) v =
          some { p with attrs := dictInsert p.attrs a v } := by
        simp only [Parameters.set_param, hm0]
      have hmap2 : ∀ k, k < tl.length →
          dictGet? p.mapping_ (i + 1 + k) = tl.get? k := by
        intro k hk
        have := hmap (k + 1) (by simpa using Nat.succ_lt_succ hk)
        have harith : i + (k + 1) = i + 1 + k := by omega
        rw [harith] at this
        simpa using this
      have hpopt2 : ∀ k, k < tl.length → (popt.get? (i + 1 + k)).isSome := by
        intro k hk
        have := hpopt (k + 1) (by simpa using Nat.succ_lt_succ hk)
        have harith : i + (k + 1) = i + 1 + k := by omega
        rw [harith] at this
        simpa using this
      obtain ⟨q, hq, q1, q2, q3, q4, q5, q6⟩ :=
        ih (i + 1) { p with attrs := dictInsert p.attrs a v } popt hnd'.2
          hmap2 hpopt2
      refine ⟨q, ?_, q1, q2, q3, q4, ?_, ?_⟩
      · show setPoptLoop popt i (tl.length + 1) p = some q
        simp only [setPoptLoop, hv, hset, hq]
      · intro k b hk
        cases k with
        | zero =>
            have hba : a = b := by simpa using hk
            subst hba
            rw [q6 a hnd'.1]
            simp only
            rw [dictGet?_insert_self]
            simpa using hv.symm
        | succ k' =>
            simp only [List.get?] at hk
            have := q5 k' b hk
            have harith : i + 1 + k' = i + (k' + 1) := by omega
            rw [harith] at this
            exact this
      · intro s hs
        have hsa : s ≠ a := fun hc => hs (hc ▸ List.mem_cons_self a tl)
        have hstl : s ∉ tl := fun hc => hs (List.mem_cons_of_mem a hc)
        rw [q6 s hstl]
        simp only
        exact dictGet?_insert_ne p.attrs a s v hsa

theorem setPopt_spec (ps : List String) (p : Parameters) (popt : List Int)
    (hnd : ps.Nodup) (hmap : p.mapping_ = idxPairs 0 ps)
    (hn : p.n = ps.length) (hlen : ps.length ≤ popt.length) :
    ∃ q, setPopt p popt = some q
      ∧ q.param_list = p.param_list ∧ q.n = p.n ∧ q.mapping = p.mapping
      ∧ q.mapping_ = p.mapping_
      ∧ (∀ k a, ps.get? k = some a → dictGet? q.attrs a = popt.get? k)
      ∧ (∀ s, s ∉ ps → dictGet? q.attrs s = dictGet? p.attrs s) := by
  have hmap' : ∀ k, k < ps.length → dictGet? p.mapping_ (0 + k) = ps.get? k := by
    intro k _
    rw [hmap, idxPairs_get?]
    simp
  have hpopt' : ∀ k, k < ps.length → (popt.get? (0 + k)).isSome := by
    intro k hk
    cases hg : popt.get? (0 + k) with
    | some v => rfl
    | none =>
        have := List.get?_eq_none.mp hg
        omega
  obtain ⟨q, hq, q1, q2, q3, q4, q5, q6⟩ :=
    setPoptLoop_spec ps 0 p popt hnd hmap' hpopt'
  refine ⟨q, ?_, q1, q2, q3, q4, ?_, q6⟩
  · unfold setPopt
    rw [hn]
    exact hq
  · intro k a hk
    have := q5 k a hk
    simpa using this

theorem fit_eq_low (o : Oracles) (st : EpistasisNonlinearRegression)
    (X : Option (List (List Int))) (y : List Int) (sw : Option (List Int))
    (kwargs : PyDict String Int) (g : GPM) (gs : List Int) (p2 : Parameters)
    (hg : st.gpm = some g)
    (hgs : setGuesses st.parameters kwargs = some gs)
    (hsp : setPopt st.parameters
      (o.curveFitPopt (o.additivePredictVals g) y gs (sw.map o.sigmaOf)) =
      some p2)
    (hord : ¬ 1 < st.order) :
    EpistasisNonlinearRegression.fit o st X y sw kwargs =
      Except.ok
        ({ st with
            Additive := some { order := 1, model_type := st.model_type,
                               gpm := some g, Xmat := none,
                               coef_ := some (o.additiveFitCoefs g) },
            parameters := p2,
            Linear := some { order := 1, model_type := st.model_type,
                             gpm := some g, Xmat := none,
                             coef_ := some (o.additiveFitCoefs g) },
            coef_ := some (o.additiveFitCoefs g) },
          [FitEvent.additiveFit,
            FitEvent.additivePredict (o.additivePredictVals g),
            FitEvent.curveFitCall (o.additivePredictVals g) y gs]) := by
  unfold EpistasisNonlinearRegression.fit fitInner
  simp only [hg, hgs, hsp, hord, if_false]

theorem fit_eq_high (o : Oracles) (st : EpistasisNonlinearRegression)
    (X : Option (List (List Int))) (y : List Int) (sw : Option (List Int))
    (kwargs : PyDict String Int) (g : GPM) (gs : List Int) (p2 : Parameters)
    (vals : List Int)
    (hg : st.gpm = some g)
    (hgs : setGuesses st.parameters kwargs = some gs)
    (hsp : setPopt st.parameters
      (o.curveFitPopt (o.additivePredictVals g) y gs (sw.map o.sigmaOf)) =
      some p2)
    (hvals : p2.values = some vals)
    (hord : 1 < st.order) :
    EpistasisNonlinearRegression.fit o st X y sw kwargs =
      Except.ok
        ({ st with
            Additive := some { order := 1, model_type := st.model_type,
                               gpm := some g, Xmat := none,
                               coef_ := some (o.additiveFitCoefs g) },
            parameters := p2,
            Linear := some { order := st.order, model_type := st.model_type,
                             gpm := none, Xmat := X,
                             coef_ := some (o.linearFitCoefs X (st.rev y vals)) },
            coef_ := some (o.linearFitCoefs X (st.rev y vals)) },
          [FitEvent.additiveFit,
            FitEvent.additivePredict (o.additivePredictVals g),
            FitEvent.curveFitCall (o.additivePredictVals g) y gs,
            FitEvent.reverseApply y vals,
            FitEvent.linearFit (st.rev y vals)]) := by
  unfold EpistasisNonlinearRegression.fit fitInner
  simp only [hg, hgs, hsp, hvals, hord, if_true]

/-- C2: for every user-supplied nonlinear function whose first declared
argument is not named "x", constructing `EpistasisNonlinearRegression` raises
an exception with a descriptive message, and the constructor succeeds
(reaching parameter setup) whenever the first argument is named "x". -/
theorem initNonlinear_first_arg_check
    (func rev : List Int → List Int → List Int) (first : String)
    (rest : List String) (epi : EpistasisMap) (order : Nat) (mt : String)
    (fl : Bool) :
    (first ≠ "x" →
      initNonlinear func rev (first :: rest) epi order mt fl =
        Except.error " First argument of the nonlinear function must be `x`. ")
    ∧ (first = "x" →
      initNonlinear func rev (first :: rest) epi order mt fl =
        Except.ok
          { func := func, rev := rev, order := order, model_type := mt,
            fix_linear := fl, parameters := Parameters.init rest,
            gpm := none, Additive := none, Linear := none, coef_ := none,
            Xattached := none, epistasis := epi }) := by
  constructor
  · intro h
    simp [initNonlinear, h]
  · intro h
    subst h
    simp [initNonlinear]

theorem initNonlinear_first_arg_check_witness :
    (initNonlinear cFunc cRev ["y", "a"] cEpi 1 "global" true =
      Except.error " First argument of the nonlinear function must be `x`. ")
    ∧ (initNonlinear cFunc cRev ["x", "a"] cEpi 1 "global" true =
      Except.ok
        { func := cFunc, rev := cRev, order := 1, model_type := "global",
          fix_linear := true, parameters := Parameters.init ["a"],
          gpm := none, Additive := none, Linear := none, coef_ := none,
          Xattached := none, epistasis := cEpi }) :=
  ⟨(initNonlinear_first_arg_check cFunc cRev "y" ["a"] cEpi 1 "global" true).1
      (by decide),
    (initNonlinear_first_arg_check cFunc cRev "x" ["a"] cEpi 1 "global" true).2
      rfl⟩

/-- C3: for every estimator with no genotype-phenotype map attached, `fit`
raises a descriptive exception before any sub-model is constructed or any
fitting work is performed (the error result carries no mutated state and an
empty trace). -/
theorem fit_raises_without_gpm (o : Oracles)
    (st : EpistasisNonlinearRegression) (X : Option (List (List Int)))
    (y : List Int) (sw : Option (List Int)) (kwargs : PyDict String Int)
    (h : st.gpm = none) :
    EpistasisNonlinearRegression.fit o st X y sw kwargs =
      Except.error "This model will not work if a genotype-phenotype map is not attached to the model class. Use the `attach_gpm` method" := by
  unfold EpistasisNonlinearRegression.fit
  rw [h]

theorem fit_raises_without_gpm_witness :
    EpistasisNonlinearRegression.fit cOr cStateNoGpm none [] none [] =
      Except.error "This model will not work if a genotype-phenotype map is not attached to the model class. Use the `attach_gpm` method" :=
  fit_raises_without_gpm cOr cStateNoGpm none [] none [] rfl

/-- C4: for every nonlinear function accepted by the constructor, the
`Parameters` container is built from the declared argument names minus the
first: the estimator's `parameters` attribute is exactly
`Parameters.init rest`, its ordered key list is `rest`, its size `n` is the
count of those names, and every parameter starts at the scalar 0. -/
theorem initNonlinear_parameters_setup
    (func rev : List Int → List Int → List Int) (rest : List String)
    (epi : EpistasisMap) (order : Nat) (mt : String) (fl : Bool) :
    (initNonlinear func rev ("x" :: rest) epi order mt fl).toOption.map
        EpistasisNonlinearRegression.parameters = some (Parameters.init rest)
    ∧ (Parameters.init rest).keys = rest
    ∧ (Parameters.init rest).n = rest.length
    ∧ rest.all
        (fun s =>
          decide (dictGet? (Parameters.init rest).attrs s = some 0)) = true := by
  refine ⟨?_, Parameters.init_param_list rest, Parameters.init_n rest, ?_⟩
  · simp [initNonlinear, Except.toOption]
  · rw [List.all_eq_true]
    intro s hs
    rw [decide_eq_true_eq]
    rw [Parameters.init_attrs_get?, if_pos hs]

/-- C6: the claim says `to_json` writes the current name-to-value mapping as
JSON; the code instead calls `json.dump(f, self())` with the arguments
swapped, so it raises a `TypeError` and leaves the (truncated) file empty. -/
theorem to_json_type_error :
    (Parameters.init ["a", "b"]).to_json "previous contents" =
      ("", Except.error
        "TypeError: Object of type TextIOWrapper is not JSON serializable") :=
  rfl

/-- C10: for every estimator with no model matrix `X` attached, `hypothesis`
raises a descriptive exception before any phenotype computation; when `X` is
attached it proceeds to compute the phenotypes. -/
theorem hypothesis_requires_X (st : EpistasisNonlinearRegression)
    (X : List (List Int)) (th : List Int) :
    (st.Xattached = none →
      st.hypothesis X th =
        Except.error "A model matrix X needs to be attached to the model. Try calling `X_constructor()`.")
    ∧ (st.Xattached.isSome →
      st.hypothesis X th =
        Except.ok (st.func
          (dotMV X ((th.drop st.parameters.n).take st.epistasis.n))
          (th.take st.parameters.n))) := by
  constructor
  · intro h
    unfold EpistasisNonlinearRegression.hypothesis
    rw [h]
  · intro h
    obtain ⟨M, hM⟩ := Option.isSome_iff_exists.mp h
    unfold EpistasisNonlinearRegression.hypothesis
    rw [hM]

theorem hypothesis_requires_X_witness :
    (EpistasisNonlinearRegression.hypothesis cState1 [[1, 0], [0, 1]]
        [0, 4, 5] =
      Except.error "A model matrix X needs to be attached to the model. Try calling `X_constructor()`.")
    ∧ (EpistasisNonlinearRegression.hypothesis cStateX [[1, 0], [0, 1]]
        [0, 4, 5] =
      Except.ok (cStateX.func
        (dotMV [[1, 0], [0, 1]]
          (([0, 4, 5].drop cStateX.parameters.n).take cStateX.epistasis.n))
        ([0, 4, 5].take cStateX.parameters.n))) :=
  ⟨(hypothesis_requires_X cState1 [[1, 0], [0, 1]] [0, 4, 5]).1 rfl,
    (hypothesis_requires_X cStateX [[1, 0], [0, 1]] [0, 4, 5]).2 rfl⟩

/-- C8: `hypothesis` splits its `thetas` argument at `i = parameters.n`,
returning `function(X·thetas[i:i+j], *thetas[:i])` with `j = epistasis.n`; on
the estimator's own `thetas` (the concatenation of `parameters.values` and
`Linear.coef_`) the split recovers exactly those two pieces. -/
theorem hypothesis_thetas_roundtrip (st : EpistasisNonlinearRegression)
    (X M : List (List Int)) (vs cs : List Int)
    (lin : EpistasisLinearRegression)
    (hX : st.Xattached = some M)
    (hvs : st.parameters.values = some vs)
    (hlen : vs.length = st.parameters.n)
    (hlin : st.Linear = some lin)
    (hcs : lin.coef_ = some cs)
    (hclen : cs.length = st.epistasis.n) :
    st.thetas = some (vs ++ cs)
    ∧ (vs ++ cs).take st.parameters.n = vs
    ∧ ((vs ++ cs).drop st.parameters.n).take st.epistasis.n = cs
    ∧ st.hypothesis X (vs ++ cs) =
        Except.ok (st.func (dotMV X cs) vs) := by
  have htake : (vs ++ cs).take st.parameters.n = vs := by
    rw [← hlen]
    exact List.take_left vs cs
  have hdrop : (vs ++ cs).drop st.parameters.n = cs := by
    rw [← hlen]
    exact List.drop_left vs cs
  have htake2 : ((vs ++ cs).drop st.parameters.n).take st.epistasis.n = cs := by
    rw [hdrop, ← hclen]
    exact List.take_length cs
  refine ⟨?_, htake, htake2, ?_⟩
  · unfold EpistasisNonlinearRegression.thetas
    rw [hvs, hlin]
    simp [hcs]
  · simp only [EpistasisNonlinearRegression.hypothesis, hX]
    rw [htake, htake2]

theorem hypothesis_thetas_roundtrip_witness :
    cStateX.thetas = some ([0] ++ [4, 5])
    ∧ (([0] : List Int) ++ [4, 5]).take cStateX.parameters.n = [0]
    ∧ ((([0] : List Int) ++ [4, 5]).drop cStateX.parameters.n).take
        cStateX.epistasis.n = [4, 5]
    ∧ cStateX.hypothesis [[1, 0], [0, 1]] ([0] ++ [4, 5]) =
        Except.ok (cStateX.func (dotMV [[1, 0], [0, 1]] [4, 5]) [0]) :=
  hypothesis_thetas_roundtrip cStateX [[1, 0], [0, 1]] [[1, 0], [0, 1]]
    [0] [4, 5]
    { order := 1, model_type := "global", gpm := none, Xmat := none,
      coef_ := some [4, 5] }
    rfl rfl rfl rfl rfl rfl

/-- C7: every reachable `Parameters` object keeps a bidirectional name-index
lookup: index-to-name-to-index is the identity below `n`, name-to-index-to-
name is the identity on the parameter names, and the `keys` property returns
the names in declaration order. -/
theorem parameters_mapping_roundtrip (ps : List String) (p : Parameters)
    (hnd : ps.Nodup) (hr : ReachableFrom ps p) :
    ((List.range p.n).all (fun i => roundtripIdxB p i) = true)
    ∧ (ps.all (fun s => roundtripNameB p s) = true)
    ∧ p.keys = ps := by
  obtain ⟨h1, h2, h3, h4, h5⟩ := reachable_invariant hr
  refine ⟨?_, ?_, h1⟩
  · rw [List.all_eq_true]
    intro i hi
    rw [List.mem_range, h2] at hi
    have hm : dictGet? p.mapping_ i = ps.get? i := by
      rw [h4, idxPairs_get?]
      simp
    obtain ⟨a, ha⟩ : ∃ a, ps.get? i = some a := by
      cases hg : ps.get? i with
      | none =>
          have := List.get?_eq_none.mp hg
          omega
      | some a => exact ⟨a, rfl⟩
    simp only [roundtripIdxB, hm, ha]
    rw [decide_eq_true_eq, h3]
    exact Parameters.init_mapping_get?_mem ps i a hnd ha
  · rw [List.all_eq_true]
    intro s hs
    obtain ⟨k, hk⟩ := List.mem_iff_get?.mp hs
    have hmap : dictGet? p.mapping s = some k := by
      rw [h3]
      exact Parameters.init_mapping_get?_mem ps k s hnd hk
    simp only [roundtripNameB, hmap]
    rw [decide_eq_true_eq, h4, idxPairs_get?]
    simpa using hk

theorem parameters_mapping_roundtrip_witness :
    ((List.range (Parameters.init ["a", "b"]).n).all
        (fun i => roundtripIdxB (Parameters.init ["a", "b"]) i) = true)
    ∧ (["a", "b"].all
        (fun s => roundtripNameB (Parameters.init ["a", "b"]) s) = true)
    ∧ (Parameters.init ["a", "b"]).keys = ["a", "b"] :=
  parameters_mapping_roundtrip ["a", "b"] (Parameters.init ["a", "b"])
    (by decide) ReachableFrom.base

/-- C9: for every reachable `Parameters` object, the three value accessors
agree: `get_params()` equals the `values` property, and `__call__` returns
the dict pairing keys with values entrywise, of length `n`. -/
theorem parameters_accessors_agree (ps : List String) (p : Parameters)
    (hnd : ps.Nodup) (hr : ReachableFrom ps p) :
    p.get_params = p.values
    ∧ p.values.map List.length = some p.n
    ∧ p.call = p.values.map (fun vs => p.keys.zip vs)
    ∧ p.call.map List.length = some p.n := by
  obtain ⟨h1, h2, h3, h4, h5⟩ := reachable_invariant hr
  obtain ⟨vs, hvs, hvslen, _⟩ := getattrList_spec ps p h5
  have hvalues : p.values = some vs := by
    unfold Parameters.values
    rw [h1]
    exact hvs
  have hgp : p.get_params = p.values := by
    unfold Parameters.get_params Parameters.values
    rw [h1, h4, idxPairs_length]
    apply getIdxList_eq_getattrList
    intro k _
    rw [h4, idxPairs_get?]
    simp
  have hkeys : p.keys = ps := h1
  have hfstzip : (ps.zip vs).map Prod.fst = ps :=
    List.map_fst_zip ps vs hvslen.symm.le
  have hfold : (ps.zip vs).foldl (fun d kv => dictInsert d kv.1 kv.2) [] =
      ps.zip vs := by
    have hf := foldl_dictInsert_fresh (ps.zip vs) []
      (by rw [hfstzip]; exact hnd)
      (by intro k _; rfl)
    simpa using hf
  have hcall : p.call = some (ps.zip vs) := by
    simp only [Parameters.call, hvalues]
    rw [hkeys, hfold]
  refine ⟨hgp, ?_, ?_, ?_⟩
  · rw [hvalues]
    simp only [Option.map_some']
    rw [hvslen, h2]
  · rw [hcall, hvalues]
    simp only [Option.map_some']
    rw [hkeys]
  · rw [hcall]
    simp only [Option.map_some']
    rw [List.length_zip, hvslen, Nat.min_self, h2]

theorem parameters_accessors_agree_witness :
    (Parameters.init ["a", "b"]).get_params = (Parameters.init ["a", "b"]).values
    ∧ (Parameters.init ["a", "b"]).values.map List.length =
        some (Parameters.init ["a", "b"]).n
    ∧ (Parameters.init ["a", "b"]).call =
        (Parameters.init ["a", "b"]).values.map
          (fun vs => (Parameters.init ["a", "b"]).keys.zip vs)
    ∧ (Parameters.init ["a", "b"]).call.map List.length =
        some (Parameters.init ["a", "b"]).n :=
  parameters_accessors_agree ["a", "b"] (Parameters.init ["a", "b"])
    (by decide) ReachableFrom.base

/-- C5: after every successful (non-widget) fit, the `parameters` object is
mutated in place: its `_param_list`, `_mapping` and `_mapping_` are the ones
it was constructed with, unchanged, and for every index `i < n` the parameter
at index `i` holds the `i`-th optimized value returned by the nonlinear
least-squares solver. -/
theorem fit_updates_parameters_in_place (o : Oracles)
    (st : EpistasisNonlinearRegression) (X : Option (List (List Int)))
    (y : List Int) (sw : Option (List Int)) (kwargs : PyDict String Int)
    (ps : List String) (g : GPM) (gs : List Int)
    (hnd : ps.Nodup) (hr : ReachableFrom ps st.parameters)
    (hg : st.gpm = some g)
    (hgs : setGuesses st.parameters kwargs = some gs)
    (hlen : ps.length ≤
      (o.curveFitPopt (o.additivePredictVals g) y gs
        (sw.map o.sigmaOf)).length) :
    (fitParams (EpistasisNonlinearRegression.fit o st X y sw kwargs)).map
        Parameters.param_list = some st.parameters.param_list
    ∧ (fitParams (EpistasisNonlinearRegression.fit o st X y sw kwargs)).map
        Parameters.mapping = some st.parameters.mapping
    ∧ (fitParams (EpistasisNonlinearRegression.fit o st X y sw kwargs)).map
        Parameters.mapping_ = some st.parameters.mapping_
    ∧ (fitParams (EpistasisNonlinearRegression.fit o st X y sw kwargs)).map
        (fun q => poptInstalledB q
          (o.curveFitPopt (o.additivePredictVals g) y gs
            (sw.map o.sigmaOf))) = some true := by
  obtain ⟨h1, h2, h3, h4, h5⟩ := reachable_invariant hr
  obtain ⟨p2, hsp, e1, e2, e3, e4, e5, e6⟩ :=
    setPopt_spec ps st.parameters
      (o.curveFitPopt (o.additivePredictVals g) y gs (sw.map o.sigmaOf))
      hnd h4 h2 hlen
  have hinst : poptInstalledB p2
      (o.curveFitPopt (o.additivePredictVals g) y gs (sw.map o.sigmaOf)) =
      true := by
    unfold poptInstalledB
    rw [List.all_eq_true]
    intro i hi
    rw [List.mem_range, e2, h2] at hi
    have hm : dictGet? p2.mapping_ i = ps.get? i := by
      rw [e4, h4, idxPairs_get?]
      simp
    obtain ⟨a, ha⟩ : ∃ a, ps.get? i = some a := by
      cases hq : ps.get? i with
      | none =>
          have := List.get?_eq_none.mp hq
          omega
      | some a => exact ⟨a, rfl⟩
    simp only [hm, ha]
    rw [decide_eq_true_eq]
    exact e5 i a ha
  by_cases hord : 1 < st.order
  · have hps2attrs : ∀ s ∈ ps, (dictGet? p2.attrs s).isSome := by
      intro s hs
      obtain ⟨k, hk⟩ := List.mem_iff_get?.mp hs
      rw [e5 k s hk]
      have hklt : k < ps.length := by
        cases hcmp : Nat.lt_or_ge k ps.length with
        | inl hlt => exact hlt
        | inr hge =>
            rw [List.get?_eq_none.mpr hge] at hk
            exact Option.noConfusion hk
      cases hq : (o.curveFitPopt (o.additivePredictVals g) y gs
          (sw.map o.sigmaOf)).get? k with
      | some v => rfl
      | none =>
          have := List.get?_eq_none.mp hq
          omega
    obtain ⟨vals, hvals, _, _⟩ := getattrList_spec ps p2 hps2attrs
    have hvalues : p2.values = some vals := by
      unfold Parameters.values
      rw [show p2.param_list = ps from e1.trans h1]
      exact hvals
    rw [fit_eq_high o st X y sw kwargs g gs p2 vals hg hgs hsp hvalues hord]
    refine ⟨?_, ?_, ?_, ?_⟩ <;>
      simp [fitParams, e1, e3, e4, hinst]
  · rw [fit_eq_low o st X y sw kwargs g gs p2 hg hgs hsp hord]
    refine ⟨?_, ?_, ?_, ?_⟩ <;>
      simp [fitParams, e1, e3, e4, hinst]

theorem fit_updates_parameters_in_place_witness :
    (fitParams (EpistasisNonlinearRegression.fit cOr cState2 none [10, 11]
        none [])).map Parameters.param_list =
      some cState2.parameters.param_list
    ∧ (fitParams (EpistasisNonlinearRegression.fit cOr cState2 none [10, 11]
        none [])).map Parameters.mapping = some cState2.parameters.mapping
    ∧ (fitParams (EpistasisNonlinearRegression.fit cOr cState2 none [10, 11]
        none [])).map Parameters.mapping_ = some cState2.parameters.mapping_
    ∧ (fitParams (EpistasisNonlinearRegression.fit cOr cState2 none [10, 11]
        none [])).map
        (fun q => poptInstalledB q
          (cOr.curveFitPopt (cOr.additivePredictVals cGpm) [10, 11] [1]
            ((none : Option (List Int)).map cOr.sigmaOf))) = some true :=
  fit_updates_parameters_in_place cOr cState2 none [10, 11] none [] ["a"]
    cGpm [1] (by decide) ReachableFrom.base rfl rfl (by decide)

/-- C1 counterexample: on an estimator with the default order 1 and a gpm
attached, `fit` (with `use_widgets` false) performs only the additive fit,
the additive predict and one nonlinear solver call; the user-supplied inverse
is never applied and the high-order linear sub-model is never fit, so the
claimed steps (3) and (4) do not occur exactly once on every call. -/
theorem fit_order_one_skips_reverse_and_linear_fit :
    fitTrace (EpistasisNonlinearRegression.fit cOr cState1 none [10, 11]
        none []) =
      some [FitEvent.additiveFit, FitEvent.additivePredict [3, 4],
        FitEvent.curveFitCall [3, 4] [10, 11] [1]]
    ∧ (fitTrace (EpistasisNonlinearRegression.fit cOr cState1 none [10, 11]
        none [])).map (fun tr => tr.countP isReverseApplyEv) = some 0
    ∧ (fitTrace (EpistasisNonlinearRegression.fit cOr cState1 none [10, 11]
        none [])).map (fun tr => tr.countP isLinearFitEv) = some 0 :=
  ⟨rfl, rfl, rfl⟩

/-- C1 (amended): on every successful non-widget fit, when the order exceeds
1 the stages happen in order and exactly once each — additive fit, additive
predict, one nonlinear solver call on the additive predictions, one
application of the user inverse to `y` with the fitted values, and one
high-order linear fit on that inverse-transformed response — with no
iteration; when the order is at most 1 only the first stages happen, the
inverse is never applied, and `self.Linear` is aliased to `self.Additive`. -/
theorem fit_two_stage_trace (o : Oracles) (st : EpistasisNonlinearRegression)
    (X : Option (List (List Int))) (y : List Int) (sw : Option (List Int))
    (kwargs : PyDict String Int) (g : GPM) (gs : List Int) (p2 : Parameters)
    (vals : List Int)
    (hg : st.gpm = some g)
    (hgs : setGuesses st.parameters kwargs = some gs)
    (hsp : setPopt st.parameters
      (o.curveFitPopt (o.additivePredictVals g) y gs (sw.map o.sigmaOf)) =
      some p2)
    (hvals : p2.values = some vals) :
    (1 < st.order →
      fitTrace (EpistasisNonlinearRegression.fit o st X y sw kwargs) =
        some [FitEvent.additiveFit,
          FitEvent.additivePredict (o.additivePredictVals g),
          FitEvent.curveFitCall (o.additivePredictVals g) y gs,
          FitEvent.reverseApply y vals,
          FitEvent.linearFit (st.rev y vals)])
    ∧ (st.order ≤ 1 →
      fitTrace (EpistasisNonlinearRegression.fit o st X y sw kwargs) =
        some [FitEvent.additiveFit,
          FitEvent.additivePredict (o.additivePredictVals g),
          FitEvent.curveFitCall (o.additivePredictVals g) y gs]
      ∧ fitLinearIsAdditive
          (EpistasisNonlinearRegression.fit o st X y sw kwargs)) := by
  constructor
  · intro hord
    rw [fit_eq_high o st X y sw kwargs g gs p2 vals hg hgs hsp hvals hord]
    rfl
  · intro hord
    have hord' : ¬ 1 < st.order := by omega
    rw [fit_eq_low o st X y sw kwargs g gs p2 hg hgs hsp hord']
    exact ⟨rfl, rfl, rfl⟩

theorem fit_two_stage_trace_witness :
    (1 < cState2.order →
      fitTrace (EpistasisNonlinearRegression.fit cOr cState2 none [10, 11]
          none []) =
        some [FitEvent.additiveFit,
          FitEvent.additivePredict (cOr.additivePredictVals cGpm),
          FitEvent.curveFitCall (cOr.additivePredictVals cGpm) [10, 11] [1],
          FitEvent.reverseApply [10, 11] [5],
          FitEvent.linearFit (cState2.rev [10, 11] [5])])
    ∧ (cState2.order ≤ 1 →
      fitTrace (EpistasisNonlinearRegression.fit cOr cState2 none [10, 11]
          none []) =
        some [FitEvent.additiveFit,
          FitEvent.additivePredict (cOr.additivePredictVals cGpm),
          FitEvent.curveFitCall (cOr.additivePredictVals cGpm) [10, 11] [1]]
      ∧ fitLinearIsAdditive
          (EpistasisNonlinearRegression.fit cOr cState2 none [10, 11]
            none [])) :=
  fit_two_stage_trace cOr cState2 none [10, 11] none [] cGpm [1]
    ⟨["a"], 1, [("a", 0)], [(0, "a")], [("a", 5)]⟩ [5] rfl rfl rfl rfl
